import Mathlib

/-!
Verification of the clean-resume masking pipeline.

Shallow embedding of `app/services/image_masking.py` (ImageMasker) and
`app/services/pdf_masking.py` (PDFMasker).  External capabilities (the YOLOS
detection model, the OpenCV cascade classifiers, cv2 drawing/codecs, PIL
decoding, PyMuPDF) are modelled as function-valued parameters; Python floats
are modelled as exact rationals (`ℚ`); numpy 2-D slicing is modelled with
Python slice-index normalisation semantics (negative indices are
end-relative, out-of-range indices are clamped).
-/

/-- Raw byte strings, modelled as lists of naturals. -/
abbrev Bytes := List Nat

/-- A BGR colour triple as used by cv2 drawing calls. -/
abbrev Color := Nat × Nat × Nat

/-- A model prediction box `[x0, y0, x1, y1]` after the `int(round(i, 0))`
rounding in `find_rects_of_interest`. -/
abbrev Box := Int × Int × Int × Int

/-- A rectangle `(x, y, w, h)` in pixel coordinates, as used throughout
`image_masking.py`.  Coordinates are integers: model boxes may stick out of
the image, so components can be negative. -/
structure Rect where
  x : Int
  y : Int
  w : Int
  h : Int
deriving DecidableEq, Repr

/-- A decoded pixel buffer (`cv2.imdecode` result): dimensions plus a pixel
lookup function. -/
structure Mat where
  width : Nat
  height : Nat
  pixel : Nat → Nat → Color

/-- Two pixel buffers are equivalent when they have the same dimensions and
agree on every in-bounds pixel. -/
def Mat.equiv (a b : Mat) : Prop :=
  a.width = b.width ∧ a.height = b.height ∧
    ∀ i j, i < a.width → j < a.height → a.pixel i j = b.pixel i j

/-- Python slice-index normalisation for an axis of length `n`: a negative
index counts from the end, and the result is clamped into `[0, n]`. -/
def normIdx (i : Int) (n : Nat) : Nat :=
  if i < 0 then (i + n).toNat else min i.toNat n

/-- The numpy crop `image[rect.y : rect.y + rect.h, rect.x : rect.x + rect.w]`
performed in `detect_maskable_areas`. -/
def npSlice2 (m : Mat) (r : Rect) : Mat :=
  { width := normIdx (r.x + r.w) m.width - normIdx r.x m.width
    height := normIdx (r.y + r.h) m.height - normIdx r.y m.height
    pixel := fun i j => m.pixel (normIdx r.x m.width + i) (normIdx r.y m.height + j) }

/-- An OpenCV cascade classifier: `detectMultiScale` as a function from a
pixel buffer to the list of matched rectangles. -/
abbrev Classifier := Mat → List Rect

/-- `ImageMasker.detect_faces`: iterate the cascade classifiers in list
order; the first classifier with at least one match returns its matches
verbatim; otherwise the empty list. -/
def detect_faces (classifiers : List Classifier) (image : Mat) : List Rect :=
  match classifiers with
  | [] => []
  | classifier :: rest =>
    let faces_detected := classifier image
    if 0 < faces_detected.length then faces_detected
    else detect_faces rest image

/-- `ImageMasker.detect_maskable_areas`: crop the image to each area of
interest, run `detect_faces` on the crop; if anything is detected the area
of interest is kept as a maskable area and each detected rectangle is
translated back to full-image coordinates. -/
def detect_maskable_areas (classifiers : List Classifier) (image : Mat)
    (areas_of_interest : List Rect) : List Rect × List Rect :=
  match areas_of_interest with
  | [] => ([], [])
  | rect :: rest =>
    let tail := detect_maskable_areas classifiers image rest
    let sub_image := npSlice2 image rect
    let detected := detect_faces classifiers sub_image
    if 0 < detected.length then
      (rect :: tail.1,
        (detected.map fun d => Rect.mk (d.x + rect.x) (d.y + rect.y) d.w d.h) ++ tail.2)
    else tail

/-- `ImageMasker.is_overlapping_full_image`: `rect.w / W > 0.7 or
rect.h / H > 0.7`, with Python float arithmetic modelled over `ℚ`. -/
def is_overlapping_full_image (rect : Rect) (imageW imageH : Nat) : Bool :=
  decide ((rect.w : ℚ) / (imageW : ℚ) > 7 / 10) ||
    decide ((rect.h : ℚ) / (imageH : ℚ) > 7 / 10)

/-- The conversion `rect = (box[0], box[1], box[2] - box[0], box[3] - box[1])`
in `find_rects_of_interest`. -/
def boxToRect (box : Box) : Rect :=
  ⟨box.1, box.2.1, box.2.2.1 - box.1, box.2.2.2 - box.2.1⟩

/-- `ImageMasker.find_rects_of_interest`: with `allow_full_mask` the single
full-image rectangle; otherwise every model prediction box, converted to a
rectangle and filtered by `allow_full_mask or not is_overlapping_full_image`.
The model's post-processed predictions are a parameter. -/
def find_rects_of_interest (imageW imageH : Nat) (predictions : List Box)
    (allow_full_mask : Bool) : List Rect :=
  if allow_full_mask then [⟨0, 0, (imageW : Int), (imageH : Int)⟩]
  else
    (predictions.map boxToRect).filter
      (fun rect => allow_full_mask || ! is_overlapping_full_image rect imageW imageH)

/-- The `cv2.rectangle(image, pt1, pt2, color, thickness)` capability. -/
abbrev CvRectangle := Mat → Int × Int → Int × Int → Color → Int → Mat

/-- `ImageMasker.mask_area`: fill one area with black (`thickness = -1`). -/
def mask_area (rectangle : CvRectangle) (area : Rect) (image : Mat) : Mat :=
  rectangle image (area.x, area.y) (area.x + area.w, area.y + area.h) (0, 0, 0) (-1)

/-- `ImageMasker.mask_areas`: fill every area in turn. -/
def mask_areas (rectangle : CvRectangle) (areas : List Rect) (image : Mat) : Mat :=
  areas.foldl (fun img a => mask_area rectangle a img) image

/-- `ImageMasker.draw_gizmos`: outline every area (`thickness = 2`). -/
def draw_gizmos (rectangle : CvRectangle) (areas : List Rect) (image : Mat)
    (color : Color) : Mat :=
  areas.foldl (fun img a => rectangle img (a.x, a.y) (a.x + a.w, a.y + a.h) color 2) image

/-- The `ImageMasker` with its injected external capabilities: the cascade
classifiers, the detection model composed with its image processor (already
returning rounded boxes), and the cv2/PIL codec and drawing functions. -/
structure ImageMasker where
  cascade_classifiers : List Classifier
  detect : Bytes → List Box
  imdecode : Bytes → Mat
  pilsize : Bytes → Nat × Nat
  imencode : String → Mat → Bytes
  rectangle : CvRectangle

/-- `ImageMasker.mask_data`: decode, propose areas of interest, verify them,
then either draw the three gizmo layers (proposals black, maskable areas
blue, detected faces red) or fill the maskable areas; return the re-encoded
bytes and the number of maskable areas. -/
def ImageMasker.mask_data (self : ImageMasker) (image_as_bytes : Bytes)
    (extension : String) (allow_full_mask : Bool) (should_draw_gizmos : Bool) :
    Bytes × Nat :=
  let mat := self.imdecode image_as_bytes
  let sz := self.pilsize image_as_bytes
  let areas_of_interest :=
    find_rects_of_interest sz.1 sz.2 (self.detect image_as_bytes) allow_full_mask
  let res := detect_maskable_areas self.cascade_classifiers mat areas_of_interest
  let out :=
    if should_draw_gizmos then
      draw_gizmos self.rectangle res.2
        (draw_gizmos self.rectangle res.1
          (draw_gizmos self.rectangle areas_of_interest mat (0, 0, 0)) (255, 0, 0))
        (0, 0, 255)
    else mask_areas self.rectangle res.1 mat
  (self.imencode extension out, res.1.length)

/-- One embedded raster image of a PDF page, as seen through
`pdf_document.extract_image(xref)`: the xref, the soft-mask field, the
format extension and the raw bytes. -/
structure EmbeddedImage where
  xref : Nat
  smask : Nat
  ext : String
  bytes : Bytes
deriving DecidableEq, Repr

/-- One PDF page: mediabox dimensions (floats, modelled as `ℚ`) and its
embedded images in enumeration order. -/
structure Page where
  width : ℚ
  height : ℚ
  images : List EmbeddedImage

/-- `PDFMasker.is_overlapping_full_page`:
`image_width > 0.8 * width and image_height > 0.8 * height`. -/
def is_overlapping_full_page (imageW imageH : Nat) (width height : ℚ) : Bool :=
  decide ((imageW : ℚ) > 8 / 10 * width) && decide ((imageH : ℚ) > 8 / 10 * height)

/-- The skip test of `PDFMasker.mask_data`:
`image_obj["smask"] != 0 and not (ext == 'png' or ext == 'gif')`. -/
def skip_image (img : EmbeddedImage) : Bool :=
  (img.smask != 0) && ! (img.ext == "png" || img.ext == "gif")

/-- The `PDFMasker` with its `ImageMasker` and its own PIL decoding
capability (`Image.open` on the extracted bytes). -/
structure PDFMasker where
  image_masker : ImageMasker
  pilsize : Bytes → Nat × Nat

/-- The `allow_full_mask` argument `PDFMasker.mask_data` passes to
`ImageMasker.mask_data` for one embedded image: the negation of the
page-coverage test. -/
def PDFMasker.allow_full_mask_for (self : PDFMasker) (pageW pageH : ℚ)
    (img : EmbeddedImage) : Bool :=
  ! is_overlapping_full_page (self.pilsize img.bytes).1 (self.pilsize img.bytes).2
      pageW pageH

/-- The per-embedded-image body of the loop in `PDFMasker.mask_data`: skip
soft-masked non-PNG/GIF images; otherwise run `ImageMasker.mask_data`
(extension defaulted to `.png`) and replace the image's bytes only when the
returned maskable-area count is positive. -/
def PDFMasker.process_image (self : PDFMasker) (pageW pageH : ℚ)
    (should_draw_gizmos : Bool) (img : EmbeddedImage) : EmbeddedImage :=
  if skip_image img then img
  else
    let res := self.image_masker.mask_data img.bytes ".png"
      (self.allow_full_mask_for pageW pageH img) should_draw_gizmos
    if 0 < res.2 then { img with bytes := res.1 } else img

/-- `PDFMasker.mask_data`: iterate all pages in order and all embedded
images per page in enumeration order, processing each image in place. -/
def PDFMasker.mask_data (self : PDFMasker) (doc : List Page)
    (should_draw_gizmos : Bool) : List Page :=
  doc.map fun page =>
    { page with
      images := page.images.map
        (self.process_image page.width page.height should_draw_gizmos) }

/-- Modelled from the spec: the crop that `detect_maskable_areas` would
perform if, as §7 of the spec demands, out-of-bounds rectangles were
"clamped to the containing image bounds" — both slice endpoints are clamped
into `[0, axis length]` with no end-relative interpretation of negative
coordinates. -/
def clampedCrop (m : Mat) (r : Rect) : Mat :=
  { width := (min (max (r.x + r.w) 0) (m.width : Int)).toNat -
      (min (max r.x 0) (m.width : Int)).toNat
    height := (min (max (r.y + r.h) 0) (m.height : Int)).toNat -
      (min (max r.y 0) (m.height : Int)).toNat
    pixel := fun i j =>
      m.pixel ((min (max r.x 0) (m.width : Int)).toNat + i)
        ((min (max r.y 0) (m.height : Int)).toNat + j) }

/-- A rectangle lies inside a `w × h` pixel grid and has positive size. -/
def rect_in_bounds (f : Rect) (w h : Nat) : Prop :=
  0 ≤ f.x ∧ 0 ≤ f.y ∧ 0 < f.w ∧ 0 < f.h ∧ f.x + f.w ≤ (w : Int) ∧ f.y + f.h ≤ (h : Int)

/-- The §6 pattern-detector capability contract: every cascade classifier
returns only positive-size rectangles lying inside the image it is given. -/
def classifiers_sound (classifiers : List Classifier) : Prop :=
  ∀ c ∈ classifiers, ∀ m : Mat, ∀ f ∈ c m, rect_in_bounds f m.width m.height

/-- A concrete classifier used by witnesses: one 1×1 match at the origin on
any non-empty image, nothing on an empty one. -/
def exClassifier : Classifier := fun m =>
  if 0 < m.width ∧ 0 < m.height then [⟨0, 0, 1, 1⟩] else []

/-- A concrete 10×10 all-black pixel buffer used by witnesses. -/
def exMat : Mat := ⟨10, 10, fun _ _ => (0, 0, 0)⟩

/-- A concrete PDFMasker for witnesses: one cascade classifier, no model
predictions, fixed 10×10 decoding, trivial codecs. -/
def exPdf : PDFMasker :=
  { image_masker :=
      { cascade_classifiers := [exClassifier]
        detect := fun _ => []
        imdecode := fun _ => exMat
        pilsize := fun _ => (10, 10)
        imencode := fun _ _ => [7]
        rectangle := fun m _ _ _ _ => m }
    pilsize := fun _ => (10, 10) }

/-- A concrete non-skipped embedded image (no soft mask). -/
def exImg : EmbeddedImage := ⟨5, 0, "jpg", [1, 2, 3]⟩

/-- A concrete skipped embedded image (soft mask, JPEG format). -/
def exImgSmask : EmbeddedImage := ⟨6, 1, "jpeg", [9, 9]⟩

/-- A PDFMasker whose PIL capability reports an 8×9 image, for the exact-80%
boundary witness. -/
def exPdf8 : PDFMasker := { image_masker := exPdf.image_masker, pilsize := fun _ => (8, 9) }

/-- A 100×100 all-black pixel buffer for the C9 counterexample. -/
def exMat100 : Mat := ⟨100, 100, fun _ _ => (0, 0, 0)⟩

/-- An area of interest with negative x, sticking out past the left edge. -/
def exRectNeg : Rect := ⟨-5, 0, 3, 10⟩

lemma exClassifier_sound : classifiers_sound [exClassifier] := by
  intro c hc m f hf
  rcases List.mem_singleton.mp hc with rfl
  unfold exClassifier at hf
  split at hf
  · next h =>
    rcases List.mem_singleton.mp hf with rfl
    refine ⟨le_refl 0, le_refl 0, one_pos, one_pos, ?_, ?_⟩
    · show (0 : Int) + 1 ≤ (m.width : Int)
      omega
    · show (0 : Int) + 1 ≤ (m.height : Int)
      omega
  · cases hf

/-- C2: with `allow_full_mask = true`, `find_rects_of_interest` returns
exactly one rectangle — the full image bounds — for every list of model
predictions, i.e. independently of the detection model. -/
theorem claim_C2_full_mask_single_rect (imageW imageH : Nat) (predictions : List Box) :
    find_rects_of_interest imageW imageH predictions true =
      [⟨0, 0, (imageW : Int), (imageH : Int)⟩] := rfl

/-- C4: `detect_faces` returns verbatim the matches of the first classifier
(in list order) that yields at least one match, independently of all later
classifiers; if no classifier matches it returns the empty list. -/
theorem claim_C4_first_match_wins (classifiers : List Classifier) (image : Mat) :
    (detect_faces classifiers image = [] ∧ ∀ c ∈ classifiers, c image = []) ∨
      (∃ front c rest, classifiers = front ++ c :: rest ∧
        (∀ c' ∈ front, c' image = []) ∧ c image ≠ [] ∧
        detect_faces classifiers image = c image) := by
  induction classifiers with
  | nil => exact Or.inl ⟨rfl, by simp⟩
  | cons c cs ih =>
    by_cases h : c image = []
    · rcases ih with ⟨h1, h2⟩ | ⟨front, c0, rest, heq, hfront, hc0, hres⟩
      · refine Or.inl ⟨by simp [detect_faces, h, h1], ?_⟩
        intro c' hc'
        rcases List.mem_cons.mp hc' with rfl | hmem
        · exact h
        · exact h2 c' hmem
      · refine Or.inr ⟨c :: front, c0, rest, by rw [heq, List.cons_append], ?_, hc0, ?_⟩
        · intro c' hc'
          rcases List.mem_cons.mp hc' with rfl | hmem
          · exact h
          · exact hfront c' hmem
        · simpa [detect_faces, h] using hres
    · exact Or.inr ⟨[], c, cs, rfl, by simp, h,
        by simp [detect_faces, List.length_pos.mpr h]⟩

/-- C5: every rectangle in the maskable-areas list returned by
`detect_maskable_areas` is one of the input areas of interest — verification
never produces an area that was not proposed. -/
theorem claim_C5_maskable_areas_are_proposals (classifiers : List Classifier)
    (image : Mat) (areas_of_interest : List Rect) (rect : Rect)
    (h : rect ∈ (detect_maskable_areas classifiers image areas_of_interest).1) :
    rect ∈ areas_of_interest := by
  induction areas_of_interest with
  | nil => simp [detect_maskable_areas] at h
  | cons r rest ih =>
    simp only [detect_maskable_areas] at h
    split at h
    · rcases List.mem_cons.mp h with rfl | hmem
      · exact List.mem_cons_self _ _
      · exact List.mem_cons_of_mem _ (ih hmem)
    · exact List.mem_cons_of_mem _ (ih h)

/-- Witness for C5 at a concrete classifier, image and proposal list. -/
theorem claim_C5_witness :
    (⟨2, 3, 4, 5⟩ : Rect) ∈ (detect_maskable_areas [exClassifier] exMat [⟨2, 3, 4, 5⟩]).1 ∧
      (⟨2, 3, 4, 5⟩ : Rect) ∈ [(⟨2, 3, 4, 5⟩ : Rect)] :=
  ⟨by decide, claim_C5_maskable_areas_are_proposals [exClassifier] exMat
    [⟨2, 3, 4, 5⟩] ⟨2, 3, 4, 5⟩ (by decide)⟩

/-- C10: the maskable-area count returned by `ImageMasker.mask_data` is the
same with `should_draw_gizmos` true or false — the flag only affects the
returned pixel bytes. -/
theorem claim_C10_count_independent_of_gizmos (self : ImageMasker)
    (image_as_bytes : Bytes) (extension : String) (allow_full_mask : Bool) :
    (self.mask_data image_as_bytes extension allow_full_mask true).2 =
      (self.mask_data image_as_bytes extension allow_full_mask false).2 := rfl

lemma detect_faces_mem (classifiers : List Classifier) (image : Mat) (f : Rect)
    (hf : f ∈ detect_faces classifiers image) : ∃ c ∈ classifiers, f ∈ c image := by
  induction classifiers with
  | nil => simp [detect_faces] at hf
  | cons c cs ih =>
    simp only [detect_faces] at hf
    split at hf
    · exact ⟨c, List.mem_cons_self _ _, hf⟩
    · obtain ⟨c', hc', hf'⟩ := ih hf
      exact ⟨c', List.mem_cons_of_mem _ hc', hf'⟩

lemma detect_faces_empty_of_degenerate (classifiers : List Classifier) (m : Mat)
    (hcs : classifiers_sound classifiers) (hdeg : m.width = 0 ∨ m.height = 0) :
    detect_faces classifiers m = [] := by
  by_contra hne
  obtain ⟨f, hf⟩ := List.exists_mem_of_ne_nil _ hne
  obtain ⟨c, hc, hfc⟩ := detect_faces_mem _ _ _ hf
  obtain ⟨h1, h2, h3, h4, h5, h6⟩ := hcs c hc m f hfc
  rcases hdeg with h | h
  · rw [h] at h5; omega
  · rw [h] at h6; omega

lemma slice_axis_bound (x w : Int) (n : Nat) (hx : 0 ≤ x) (hw : 0 ≤ w) (e : Nat)
    (he : e = normIdx (x + w) n - normIdx x n) (hpos : 0 < e) :
    x + (e : Int) ≤ (n : Int) := by
  unfold normIdx at he
  split at he <;> split at he <;> omega

lemma normIdx_nonneg_eq (i : Int) (n : Nat) (hi : 0 ≤ i) :
    normIdx i n = (min (max i 0) (n : Int)).toNat := by
  unfold normIdx
  split <;> omega

/-- C3: with `allow_full_mask = false`, a prediction's rectangle is kept by
`find_rects_of_interest` exactly when its width is at most 70% of the image
width and its height at most 70% of the image height (float thresholds
modelled over `ℚ`). -/
theorem claim_C3_seventy_percent_filter (imageW imageH : Nat) (predictions : List Box)
    (rect : Rect) (hmem : rect ∈ predictions.map boxToRect)
    (hW : 0 < imageW) (hH : 0 < imageH) :
    rect ∈ find_rects_of_interest imageW imageH predictions false ↔
      ((rect.w : ℚ) ≤ 7 / 10 * (imageW : ℚ) ∧ (rect.h : ℚ) ≤ 7 / 10 * (imageH : ℚ)) := by
  have hW' : (0 : ℚ) < (imageW : ℚ) := by exact_mod_cast hW
  have hH' : (0 : ℚ) < (imageH : ℚ) := by exact_mod_cast hH
  have key : (! is_overlapping_full_image rect imageW imageH) = true ↔
      ((rect.w : ℚ) ≤ 7 / 10 * (imageW : ℚ) ∧ (rect.h : ℚ) ≤ 7 / 10 * (imageH : ℚ)) := by
    simp only [is_overlapping_full_image, Bool.not_eq_true', Bool.or_eq_false_iff,
      decide_eq_false_iff_not, not_lt]
    constructor
    · rintro ⟨h1, h2⟩
      exact ⟨by linarith [(div_le_iff₀ hW').mp h1], by linarith [(div_le_iff₀ hH').mp h2]⟩
    · rintro ⟨h1, h2⟩
      exact ⟨(div_le_iff₀ hW').mpr (by linarith), (div_le_iff₀ hH').mpr (by linarith)⟩
  rw [show find_rects_of_interest imageW imageH predictions false =
      (predictions.map boxToRect).filter
        (fun r => false || ! is_overlapping_full_image r imageW imageH) from rfl,
    List.mem_filter]
  simp only [Bool.false_or, hmem, true_and]
  exact key

/-- Witness for C3: a 7×7 box inside a 10×10 image passes the 70% filter. -/
theorem claim_C3_witness :
    0 < 10 ∧ (⟨0, 0, 7, 7⟩ : Rect) ∈ find_rects_of_interest 10 10 [(0, 0, 7, 7)] false :=
  ⟨by decide,
    (claim_C3_seventy_percent_filter 10 10 [(0, 0, 7, 7)] ⟨0, 0, 7, 7⟩
      (by decide) (by decide) (by decide)).mpr (by norm_num)⟩

/-- C1: `PDFMasker.mask_data` processes every embedded image with
`PDFMasker.process_image` (first conjunct, tying the document loop to the
per-image step), and for a non-skipped image the step replaces the image's
bytes with the `ImageMasker.mask_data` output exactly when the returned
maskable-area count is positive, and leaves the record unchanged when the
count is zero. -/
theorem claim_C1_commit_iff_positive_count (self : PDFMasker) (doc : List Page)
    (should_draw_gizmos : Bool) (pageW pageH : ℚ) (img : EmbeddedImage)
    (hskip : skip_image img = false) :
    (self.mask_data doc should_draw_gizmos = doc.map (fun page =>
        { page with
          images := page.images.map
            (self.process_image page.width page.height should_draw_gizmos) })) ∧
      (0 < (self.image_masker.mask_data img.bytes ".png"
            (self.allow_full_mask_for pageW pageH img) should_draw_gizmos).2 →
        self.process_image pageW pageH should_draw_gizmos img =
          { img with bytes := (self.image_masker.mask_data img.bytes ".png"
              (self.allow_full_mask_for pageW pageH img) should_draw_gizmos).1 }) ∧
      ((self.image_masker.mask_data img.bytes ".png"
            (self.allow_full_mask_for pageW pageH img) should_draw_gizmos).2 = 0 →
        self.process_image pageW pageH should_draw_gizmos img = img) := by
  refine ⟨rfl, ?_, ?_⟩ <;> intro h <;>
    simp [PDFMasker.process_image, hskip, h]

/-- Witness for C1: with `exPdf` the single full-image proposal is confirmed
by `exClassifier`, the count is positive and the bytes are replaced. -/
theorem claim_C1_witness :
    skip_image exImg = false ∧
      exPdf.process_image 100 100 false exImg =
        { exImg with bytes := (exPdf.image_masker.mask_data exImg.bytes ".png"
            (exPdf.allow_full_mask_for 100 100 exImg) false).1 } :=
  ⟨by decide, by
    have hflag : exPdf.allow_full_mask_for 100 100 exImg = true := by
      norm_num [PDFMasker.allow_full_mask_for, is_overlapping_full_page, exPdf]
    exact (claim_C1_commit_iff_positive_count exPdf [] false 100 100 exImg (by decide)).2.1
      (by rw [hflag]; decide)⟩

/-- C7: an embedded image with a non-zero soft mask whose format is neither
PNG nor GIF is skipped: `PDFMasker.mask_data` (which processes each image
with `PDFMasker.process_image`, first conjunct) leaves its record unchanged,
for every `PDFMasker` — hence independently of every decoding and masking
capability, so the image is neither decoded nor passed to `ImageMasker`. -/
theorem claim_C7_soft_masked_skipped (self : PDFMasker) (doc : List Page)
    (should_draw_gizmos : Bool) (pageW pageH : ℚ) (img : EmbeddedImage)
    (h1 : img.smask ≠ 0) (h2 : img.ext ≠ "png") (h3 : img.ext ≠ "gif") :
    (self.mask_data doc should_draw_gizmos = doc.map (fun page =>
        { page with
          images := page.images.map
            (self.process_image page.width page.height should_draw_gizmos) })) ∧
      self.process_image pageW pageH should_draw_gizmos img = img := by
  refine ⟨rfl, ?_⟩
  have hskip : skip_image img = true := by
    simp [skip_image, h1, h2, h3]
  simp [PDFMasker.process_image, hskip]

/-- Witness for C7: a soft-masked JPEG image is left unchanged. -/
theorem claim_C7_witness :
    exImgSmask.smask ≠ 0 ∧ exImgSmask.ext ≠ "png" ∧ exImgSmask.ext ≠ "gif" ∧
      exPdf.process_image 100 100 false exImgSmask = exImgSmask :=
  ⟨by decide, by decide, by decide,
    (claim_C7_soft_masked_skipped exPdf [] false 100 100 exImgSmask
      (by decide) (by decide) (by decide)).2⟩

/-- C8: the `allow_full_mask` flag passed to `ImageMasker.mask_data` is
`false` exactly when the decoded image is strictly wider than 80% of the
page width and strictly taller than 80% of the page height; at exactly 80%
in either dimension the image is not page-covering and the flag is `true`
(the boundary is strict `>`). -/
theorem claim_C8_coverage_boundary (self : PDFMasker) (pageW pageH : ℚ)
    (img : EmbeddedImage) :
    (self.allow_full_mask_for pageW pageH img = false ↔
      (((self.pilsize img.bytes).1 : ℚ) > 8 / 10 * pageW ∧
        ((self.pilsize img.bytes).2 : ℚ) > 8 / 10 * pageH)) ∧
      ((((self.pilsize img.bytes).1 : ℚ) = 8 / 10 * pageW ∨
          ((self.pilsize img.bytes).2 : ℚ) = 8 / 10 * pageH) →
        self.allow_full_mask_for pageW pageH img = true) := by
  constructor
  · simp [PDFMasker.allow_full_mask_for, is_overlapping_full_page]
  · rintro (h | h) <;>
      simp [PDFMasker.allow_full_mask_for, is_overlapping_full_page, h]

/-- Witness for C8: an image exactly at 80% of a 10-wide page gets
`allow_full_mask = true`. -/
theorem claim_C8_witness :
    (((exPdf8.pilsize exImg.bytes).1 : ℚ) = 8 / 10 * 10 ∨
        ((exPdf8.pilsize exImg.bytes).2 : ℚ) = 8 / 10 * 10) ∧
      exPdf8.allow_full_mask_for 10 10 exImg = true :=
  ⟨Or.inl (by norm_num [exPdf8]),
    (claim_C8_coverage_boundary exPdf8 10 10 exImg).2 (Or.inl (by norm_num [exPdf8]))⟩

/-- C6 counterexample: model boxes are not clamped, so the negative-origin
area of interest `(-5, 0, 3, 10)` reaches the crop on a 100×100 image; the
end-relative crop is a non-empty 3×10 window, a classifier satisfying the
§6 contract matches `(0,0,1,1)` inside it, and the translated feature
reported by `detect_maskable_areas` is `(-5, 0, 1, 1)` — its x-coordinate
is negative, so the reported feature does not lie within the full image
bounds. -/
theorem claim_C6_counterexample :
    (⟨-5, 0, 1, 1⟩ : Rect) ∈ (detect_maskable_areas [exClassifier] exMat100 [exRectNeg]).2 ∧
      classifiers_sound [exClassifier] ∧
      ¬ (0 ≤ (⟨-5, 0, 1, 1⟩ : Rect).x) :=
  ⟨by decide, exClassifier_sound, by decide⟩

/-- C6 (amended): for areas of interest with non-negative origin and size
(negative-origin proposals are not clamped and can yield out-of-bounds
features — see the counterexample) and under the §6 detector contract
(classifiers return positive-size rectangles inside the image they are
given), every confirmed feature rectangle reported by
`detect_maskable_areas` after translation lies within the full image
bounds. -/
theorem claim_C6_features_within_bounds (classifiers : List Classifier) (image : Mat)
    (areas_of_interest : List Rect) (hcs : classifiers_sound classifiers)
    (haoi : ∀ r ∈ areas_of_interest, 0 ≤ r.x ∧ 0 ≤ r.y ∧ 0 ≤ r.w ∧ 0 ≤ r.h)
    (f : Rect) (hf : f ∈ (detect_maskable_areas classifiers image areas_of_interest).2) :
    0 ≤ f.x ∧ 0 ≤ f.y ∧ f.x + f.w ≤ (image.width : Int) ∧
      f.y + f.h ≤ (image.height : Int) := by
  induction areas_of_interest with
  | nil => simp [detect_maskable_areas] at hf
  | cons r rest ih =>
    obtain ⟨hrx, hry, hrw, hrh⟩ := haoi r (List.mem_cons_self _ _)
    have hrest : ∀ r' ∈ rest, 0 ≤ r'.x ∧ 0 ≤ r'.y ∧ 0 ≤ r'.w ∧ 0 ≤ r'.h :=
      fun r' h' => haoi r' (List.mem_cons_of_mem _ h')
    simp only [detect_maskable_areas] at hf
    split at hf
    · rcases List.mem_append.mp hf with hnew | hold
      · obtain ⟨d, hd, hfd⟩ := List.mem_map.mp hnew
        obtain ⟨c, hc, hdc⟩ := detect_faces_mem _ _ _ hd
        obtain ⟨h1, h2, h3, h4, h5, h6⟩ := hcs c hc _ _ hdc
        cases hfd
        have hposw : 0 < (npSlice2 image r).width := by omega
        have hposh : 0 < (npSlice2 image r).height := by omega
        have hbw := slice_axis_bound r.x r.w image.width hrx hrw
          ((npSlice2 image r).width) rfl hposw
        have hbh := slice_axis_bound r.y r.h image.height hry hrh
          ((npSlice2 image r).height) rfl hposh
        refine ⟨?_, ?_, ?_, ?_⟩
        · show 0 ≤ d.x + r.x
          omega
        · show 0 ≤ d.y + r.y
          omega
        · show d.x + r.x + d.w ≤ (image.width : Int)
          omega
        · show d.y + r.y + d.h ≤ (image.height : Int)
          omega
      · exact ih hrest hold
    · exact ih hrest hf

/-- Witness for C6 at a concrete classifier, image and proposal list. -/
theorem claim_C6_witness :
    0 ≤ (⟨2, 3, 1, 1⟩ : Rect).x ∧ 0 ≤ (⟨2, 3, 1, 1⟩ : Rect).y ∧
      (⟨2, 3, 1, 1⟩ : Rect).x + (⟨2, 3, 1, 1⟩ : Rect).w ≤ (exMat.width : Int) ∧
      (⟨2, 3, 1, 1⟩ : Rect).y + (⟨2, 3, 1, 1⟩ : Rect).h ≤ (exMat.height : Int) :=
  claim_C6_features_within_bounds [exClassifier] exMat [⟨2, 3, 4, 5⟩]
    exClassifier_sound (by decide) ⟨2, 3, 1, 1⟩ (by decide)

/-- C9 counterexample: for the area of interest `(-5, 0, 3, 10)` on a
100×100 image, the crop performed by `detect_maskable_areas` (numpy slicing,
where a negative start is end-relative) is a non-empty 3-pixel-wide window
near the right edge, not the empty crop that clamping to the containing
image bounds would produce — so out-of-bounds rectangles are not always
clamped. -/
theorem claim_C9_counterexample :
    ¬ Mat.equiv (npSlice2 exMat100 exRectNeg) (clampedCrop exMat100 exRectNeg) :=
  fun h => absurd h.1 (by decide)

/-- C9 (amended): cropping in `detect_maskable_areas` is a total function
(never raises); for an area of interest with non-negative origin and size it
agrees with clamping to the containing image bounds, and — under the §6
detector contract — a crop of empty width or height yields no confirmed
features.  Rectangles with negative origin follow Python end-relative index
semantics instead of being clamped (see the counterexample). -/
theorem claim_C9_amended_clamping (m : Mat) (r : Rect) (classifiers : List Classifier)
    (hcs : classifiers_sound classifiers)
    (hx : 0 ≤ r.x) (hy : 0 ≤ r.y) (hw : 0 ≤ r.w) (hh : 0 ≤ r.h) :
    Mat.equiv (npSlice2 m r) (clampedCrop m r) ∧
      ((npSlice2 m r).width = 0 ∨ (npSlice2 m r).height = 0 →
        detect_faces classifiers (npSlice2 m r) = []) := by
  have ex : normIdx r.x m.width = (min (max r.x 0) (m.width : Int)).toNat :=
    normIdx_nonneg_eq _ _ hx
  have exw : normIdx (r.x + r.w) m.width =
      (min (max (r.x + r.w) 0) (m.width : Int)).toNat :=
    normIdx_nonneg_eq _ _ (by omega)
  have ey : normIdx r.y m.height = (min (max r.y 0) (m.height : Int)).toNat :=
    normIdx_nonneg_eq _ _ hy
  have eyh : normIdx (r.y + r.h) m.height =
      (min (max (r.y + r.h) 0) (m.height : Int)).toNat :=
    normIdx_nonneg_eq _ _ (by omega)
  refine ⟨⟨?_, ?_, ?_⟩, fun hdeg => detect_faces_empty_of_degenerate _ _ hcs hdeg⟩
  · show normIdx (r.x + r.w) m.width - normIdx r.x m.width = _
    rw [exw, ex]
    rfl
  · show normIdx (r.y + r.h) m.height - normIdx r.y m.height = _
    rw [eyh, ey]
    rfl
  · intro i j _ _
    show m.pixel (normIdx r.x m.width + i) (normIdx r.y m.height + j) = _
    rw [ex, ey]
    rfl

/-- Witness for the amended C9: a fully out-of-range (but non-negative)
rectangle gives an empty crop, equal to the clamped crop, and no features. -/
theorem claim_C9_witness :
    Mat.equiv (npSlice2 exMat ⟨20, 0, 5, 5⟩) (clampedCrop exMat ⟨20, 0, 5, 5⟩) ∧
      ((npSlice2 exMat ⟨20, 0, 5, 5⟩).width = 0 ∨
          (npSlice2 exMat ⟨20, 0, 5, 5⟩).height = 0 →
        detect_faces [exClassifier] (npSlice2 exMat ⟨20, 0, 5, 5⟩) = []) :=
  claim_C9_amended_clamping exMat ⟨20, 0, 5, 5⟩ [exClassifier] exClassifier_sound
    (by decide) (by decide) (by decide) (by decide)

/-- Witness for C4 at a concrete classifier list and image. -/
theorem claim_C4_witness :
    (detect_faces [exClassifier] exMat = [] ∧ ∀ c ∈ [exClassifier], c exMat = []) ∨
      (∃ front c rest, [exClassifier] = front ++ c :: rest ∧
        (∀ c' ∈ front, c' exMat = []) ∧ c exMat ≠ [] ∧
        detect_faces [exClassifier] exMat = c exMat) :=
  claim_C4_first_match_wins [exClassifier] exMat
